import Mathlib

/-!
Shallow embedding of the audio-trimmer server (src/server.js) together with
the legacy pipeline variant kept in the repository README bundle.  The
JavaScript code is modelled value-for-value: ffprobe results are records of
raw string fields, JavaScript number coercions (`parseInt`, `parseFloat`,
truthiness) are explicit functions, and the fluent-ffmpeg command built by
`removeSilence` is modelled as the record of codec / bitrate / filter /
extra-option settings applied to it.
-/

namespace AudioTrimmer

/-- Whitespace characters JavaScript number parsing skips. -/
def isJsSpace (c : Char) : Bool :=
  c = ' ' || c = '\t' || c = '\n' || c = '\r'

/-- Leading and trailing whitespace removed from a character list. -/
def trimChars (cs : List Char) : List Char :=
  ((cs.dropWhile isJsSpace).reverse.dropWhile isJsSpace).reverse

/-- Character list split at every occurrence of a separator character. -/
def splitOnChar (sep : Char) : List Char → List (List Char)
  | [] => [[]]
  | c :: rest =>
    let r := splitOnChar sep rest
    if c = sep then [] :: r
    else
      match r with
      | [] => [[c]]
      | h :: t => (c :: h) :: t

/-- Character lists joined with a separator character between them. -/
def joinWithChar (sep : Char) : List (List Char) → List Char
  | [] => []
  | [x] => x
  | x :: xs => x ++ sep :: joinWithChar sep xs

/-- Lower-cased copy of a string (model of `String.toLowerCase`). -/
def lowerStr (s : String) : String :=
  String.mk (s.toList.map Char.toLower)

/-- Longest prefix of decimal digit characters. -/
def leadDigits (cs : List Char) : List Char :=
  cs.takeWhile (fun c => c.isDigit)

/-- Natural number denoted by a list of decimal digit characters. -/
def natOfDigits (ds : List Char) : Nat :=
  ds.foldl (fun n c => n * 10 + (c.toNat - 48)) 0

/-- JavaScript `parseInt(s)` (base 10): skip leading whitespace, optional
sign, then the longest run of decimal digits; `none` models `NaN` (no
digits found).  Hexadecimal and exponent forms are not used by this
program's inputs and are not modelled. -/
def parseIntJs (s : String) : Option Int :=
  let cs := trimChars s.toList
  match cs with
  | '-' :: rest =>
    let ds := leadDigits rest
    if ds.isEmpty then none else some (-(natOfDigits ds : Int))
  | '+' :: rest =>
    let ds := leadDigits rest
    if ds.isEmpty then none else some ((natOfDigits ds : Int))
  | _ =>
    let ds := leadDigits cs
    if ds.isEmpty then none else some ((natOfDigits ds : Int))

/-- JavaScript `parseFloat(s)` restricted to plain decimal literals
`[sign] digits [. digits]`; `none` models `NaN`.  Exponent notation is not
used by ffprobe duration/size fields and is not modelled. -/
def parseFloatJs (s : String) : Option Rat :=
  let core : List Char → Option Rat := fun cs =>
    let intDs := leadDigits cs
    let rest := cs.drop intDs.length
    let fracDs :=
      match rest with
      | '.' :: r => leadDigits r
      | _ => []
    if intDs.isEmpty && fracDs.isEmpty then none
    else
      some ((natOfDigits intDs : Rat) +
        (natOfDigits fracDs : Rat) / ((10 : Rat) ^ fracDs.length))
  let cs := trimChars s.toList
  match cs with
  | '-' :: rest => (core rest).map (fun q => -q)
  | '+' :: rest => core rest
  | _ => core cs

/-- Truthiness of a JavaScript numeric slot: `null` and `NaN` are both
modelled as `none`; `0` is falsy. -/
def jsTruthyNum (v : Option Int) : Bool :=
  match v with
  | none => false
  | some n => n != 0

/-- Truthiness of a possibly-absent JavaScript string field: absent
(`undefined`) and the empty string are falsy, every other string truthy. -/
def jsStrTruthy (v : Option String) : Bool :=
  match v with
  | none => false
  | some s => !s.isEmpty

/-- Audio metadata record resolved by `getAudioMetadata`
(src/server.js lines 86-91).  `bitrate = none` models both `null` and
`NaN`; a parsed literal zero is kept as `some 0` exactly as the JS value
`0` is. -/
structure AudioMetadata where
  bitrate : Option Int
  codec : String
  sampleRate : Nat
  channels : Nat
deriving DecidableEq, Repr

/-- One entry of `metadata.streams` as reported by ffprobe: the raw
`bit_rate` field is an optional string (absent, `"N/A"`, or a decimal). -/
structure FfprobeStream where
  codec_type : String
  bit_rate : Option String
  codec_name : String
  sample_rate : Nat
  channels : Nat
deriving DecidableEq, Repr

/-- The `metadata.format` container section reported by ffprobe. -/
structure FfprobeFormat where
  bit_rate : Option String
  size : Option String
  duration : Option String
deriving DecidableEq, Repr

/-- A complete ffprobe result. -/
structure FfprobeData where
  streams : List FfprobeStream
  format : Option FfprobeFormat
deriving DecidableEq, Repr

/-- Errors of the metadata prober: the ffprobe callback delivering an
error, or no stream with `codec_type = "audio"`. -/
inductive ProbeError where
  | ProbeFailed
  | NoAudioStream
deriving DecidableEq, Repr

/-- Embedding of `getAudioMetadata` (src/server.js lines 52-94).  The
argument is `none` when the ffprobe invocation itself errors.  The bitrate
cascade mirrors lines 67-80: stream `bit_rate` if the raw field is truthy
(its parse may still yield `NaN`, i.e. `none`, or `0`); then the container
`bit_rate` when the current value is falsy; then
`Math.floor(fileSizeBytes * 8 / durationSeconds)` when the current value
is falsy, the raw `size` and `duration` fields are truthy and the parsed
duration is positive. -/
def getAudioMetadata (probe : Option FfprobeData) :
    Except ProbeError AudioMetadata :=
  match probe with
  | none => .error .ProbeFailed
  | some metadata =>
    match metadata.streams.find? (fun s => s.codec_type == "audio") with
    | none => .error .NoAudioStream
    | some audioStream =>
      let bitrate : Option Int :=
        if jsStrTruthy audioStream.bit_rate then
          parseIntJs (audioStream.bit_rate.getD "")
        else none
      let bitrate : Option Int :=
        if !jsTruthyNum bitrate then
          match metadata.format with
          | some fmt =>
            if jsStrTruthy fmt.bit_rate then
              parseIntJs (fmt.bit_rate.getD "")
            else bitrate
          | none => bitrate
        else bitrate
      let bitrate : Option Int :=
        if !jsTruthyNum bitrate then
          match metadata.format with
          | some fmt =>
            if jsStrTruthy fmt.size && jsStrTruthy fmt.duration then
              match parseFloatJs (fmt.duration.getD "") with
              | some durationSeconds =>
                if 0 < durationSeconds then
                  (parseIntJs (fmt.size.getD "")).map
                    (fun fileSizeBytes =>
                      ⌊((fileSizeBytes * 8 : Int) : Rat) / durationSeconds⌋)
                else bitrate
              | none => bitrate
            else bitrate
          | none => bitrate
        else bitrate
      .ok
        { bitrate := bitrate
          codec := audioStream.codec_name
          sampleRate := audioStream.sample_rate
          channels := audioStream.channels }

/-- Bitrate cascade of `getAudioMetadata` (src/server.js lines 67-80)
factored out as a standalone function of the audio stream's raw `bit_rate`
field and the container section; proved below to agree with the inline
cascade of `getAudioMetadata`. -/
def resolveBitrateJs (sbr : Option String) (fmtO : Option FfprobeFormat) :
    Option Int :=
  let bitrate : Option Int :=
    if jsStrTruthy sbr then parseIntJs (sbr.getD "") else none
  let bitrate : Option Int :=
    if !jsTruthyNum bitrate then
      match fmtO with
      | some fmt =>
        if jsStrTruthy fmt.bit_rate then parseIntJs (fmt.bit_rate.getD "")
        else bitrate
      | none => bitrate
    else bitrate
  let bitrate : Option Int :=
    if !jsTruthyNum bitrate then
      match fmtO with
      | some fmt =>
        if jsStrTruthy fmt.size && jsStrTruthy fmt.duration then
          match parseFloatJs (fmt.duration.getD "") with
          | some durationSeconds =>
            if 0 < durationSeconds then
              (parseIntJs (fmt.size.getD "")).map
                (fun fileSizeBytes =>
                  ⌊((fileSizeBytes * 8 : Int) : Rat) / durationSeconds⌋)
            else bitrate
          | none => bitrate
        else bitrate
      | none => bitrate
    else bitrate
  bitrate

/-- Model of Node's `path.extname`: the suffix of the basename from its
last dot onward; empty when the basename has no dot or its only dot is the
leading character (hidden files). -/
def extname (p : String) : String :=
  let cs := (splitOnChar '/' p.toList).getLastD []
  let lastDot :=
    (List.range cs.length).foldl
      (fun acc i => if cs.get? i = some '.' then some i else acc) none
  match lastDot with
  | none => ""
  | some 0 => ""
  | some i => String.mk (cs.drop i)

/-- The one audio filter both pipeline variants install
(src/server.js line 138). -/
def silenceremoveFilter : String :=
  "silenceremove=stop_periods=-1:stop_duration=0.5:stop_threshold=-30dB"

/-- Configuration accumulated on a fluent-ffmpeg command object: the
audio-filter chain, the selected codec (`none` until `audioCodec` is
called), the selected bitrate in kbps (`none` when no `audioBitrate` call
is made), and options added with `addOption`. -/
structure EncodingConfig where
  audioFilters : List String
  audioCodec : Option String
  audioBitrate : Option Int
  extraOptions : List (String × String)
deriving DecidableEq, Repr

/-- Target-bitrate derivation of `removeSilence`
(src/server.js lines 141-147): when `metadata && metadata.bitrate` is
truthy, `targetBitrate = Math.max(32, Math.floor(metadata.bitrate / 1000))`,
otherwise it stays `null`. -/
def targetBitrateOf (metadata : Option AudioMetadata) : Option Int :=
  match metadata with
  | none => none
  | some m =>
    match m.bitrate with
    | none => none
    | some b => if b ≠ 0 then some (max 32 (Int.fdiv b 1000)) else none

/-- Embedding of the command built by `removeSilence`
(src/server.js lines 131-195): the silenceremove filter plus the
codec/bitrate branch chosen by the lower-cased output extension, using the
derived target bitrate or a per-format default. -/
def removeSilence (inputPath outputPath : String)
    (metadata : Option AudioMetadata) : EncodingConfig :=
  let outputExt := lowerStr (extname outputPath)
  let base : EncodingConfig :=
    { audioFilters := [silenceremoveFilter]
      audioCodec := none
      audioBitrate := none
      extraOptions := [] }
  let targetBitrate := targetBitrateOf metadata
  let _ := inputPath
  if outputExt = ".mp3" ∨ outputExt = ".mpeg" then
    match targetBitrate with
    | some t =>
      { base with audioCodec := some "libmp3lame", audioBitrate := some t }
    | none =>
      { base with audioCodec := some "libmp3lame", audioBitrate := some 128 }
  else if outputExt = ".m4a" ∨ outputExt = ".mp4" then
    match targetBitrate with
    | some t =>
      { base with
          audioCodec := some "aac"
          audioBitrate := some t
          extraOptions := [("-profile:a", "aac_low")] }
    | none =>
      { base with
          audioCodec := some "aac"
          audioBitrate := some 96
          extraOptions := [("-profile:a", "aac_low")] }
  else if outputExt = ".ogg" then
    match targetBitrate with
    | some t =>
      { base with
          audioCodec := some "libvorbis"
          audioBitrate := some (min t 256) }
    | none => { base with audioCodec := some "libvorbis" }
  else if outputExt = ".wav" then
    { base with audioCodec := some "pcm_s16le" }
  else
    match targetBitrate with
    | some t =>
      { base with audioCodec := some "aac", audioBitrate := some t }
    | none =>
      { base with audioCodec := some "aac", audioBitrate := some 96 }

/-- Embedding of the command built by the legacy `removeSilence` variant
(the README-bundle server, lines 180-222): same filter, but fixed 192 kbps
for mp3/aac targets, vorbis and pcm defaults otherwise, and no metadata
parameter at all. -/
def legacyRemoveSilence (inputPath outputPath : String) : EncodingConfig :=
  let outputExt := lowerStr (extname outputPath)
  let base : EncodingConfig :=
    { audioFilters := [silenceremoveFilter]
      audioCodec := none
      audioBitrate := none
      extraOptions := [] }
  let _ := inputPath
  if outputExt = ".mp3" ∨ outputExt = ".mpeg" then
    { base with audioCodec := some "libmp3lame", audioBitrate := some 192 }
  else if outputExt = ".m4a" ∨ outputExt = ".mp4" then
    { base with audioCodec := some "aac", audioBitrate := some 192 }
  else if outputExt = ".ogg" then
    { base with audioCodec := some "libvorbis" }
  else if outputExt = ".wav" then
    { base with audioCodec := some "pcm_s16le" }
  else
    { base with audioCodec := some "aac", audioBitrate := some 192 }

/-- Split a `key=value` token at its first `=`. -/
def splitKV (s : String) : String × String :=
  match splitOnChar '=' s.toList with
  | [] => ("", "")
  | [k] => (String.mk k, "")
  | k :: rest => (String.mk k, String.mk (joinWithChar '=' rest))

/-- Parse an ffmpeg filter specification `name=k1=v1:k2=v2:...` into the
filter name and its key/value arguments. -/
def parseFilterSpec (s : String) : String × List (String × String) :=
  match splitOnChar ':' s.toList with
  | [] => ("", [])
  | first :: rest =>
    let p := splitKV (String.mk first)
    (p.1, splitKV p.2 :: rest.map (fun w => splitKV (String.mk w)))

/-- Codec/bitrate row of the spec's §4.2 table: codec name, bitrate in
kbps (`none` = codec default / lossless), and whether the row demands the
AAC-LC profile. -/
structure CodecChoice where
  codec : String
  bitrate : Option Int
  aacLc : Bool
deriving DecidableEq, Repr

/-- Modelled from the spec: the §4.2 codec/bitrate selection table, as a
function of the lower-cased output extension and the derived target
bitrate (known / unknown). -/
def specTableChoice (ext : String) (target : Option Int) : CodecChoice :=
  if ext = ".mp3" ∨ ext = ".mpeg" then
    { codec := "libmp3lame", bitrate := some (target.getD 128), aacLc := false }
  else if ext = ".m4a" ∨ ext = ".mp4" then
    { codec := "aac", bitrate := some (target.getD 96), aacLc := true }
  else if ext = ".ogg" then
    { codec := "libvorbis", bitrate := target.map (fun t => min t 256),
      aacLc := false }
  else if ext = ".wav" then
    { codec := "pcm_s16le", bitrate := none, aacLc := false }
  else
    { codec := "aac", bitrate := some (target.getD 96), aacLc := true }

/-- Whether a command configuration produces AAC-LC output: either the
`-profile:a aac_low` option is set explicitly, or the codec is ffmpeg's
native `aac` encoder, whose default profile is `aac_low` (AAC-LC). -/
def producesAacLc (cfg : EncodingConfig) : Bool :=
  cfg.extraOptions.contains ("-profile:a", "aac_low") ||
    cfg.audioCodec == some "aac"

/-- Model of JavaScript `Number.prototype.toFixed(2)` on an exact value:
for negative input prepend a minus sign and round the absolute value; the
integer of hundredths is the one closest to `|q| * 100`, ties going to the
larger — computed as `floor(|q| * 100 + 1/2)`, i.e. the natural-number
quotient `(|q.num| * 200 + q.den) / (2 * q.den)`. -/
def toFixed2 (q : Rat) : String :=
  let s := if q < 0 then "-" else ""
  let n := (q.num.natAbs * 200 + q.den) / (2 * q.den)
  s ++ toString (n / 100) ++ "." ++
    (if n % 100 < 10 then "0" else "") ++ toString (n % 100)

/-- Filename multer's disk storage generates for an uploaded file
(src/server.js lines 28-31): `Date.now() + '-' + randomSuffix` followed by
the original name's extension. -/
def uploadFilename (now rand : Nat) (originalname : String) : String :=
  toString now ++ "-" ++ toString rand ++ extname originalname

/-- Filename the upload handler generates for the output artifact
(src/server.js line 226): a `trimmed-` tag, `Date.now()`, and the original
name's extension — with no random component. -/
def outputFilename (now : Nat) (originalname : String) : String :=
  "trimmed-" ++ toString now ++ extname originalname

/-- Environment of one `POST /api/trim-silence` request: everything the
outside world (multer, ffprobe, ffmpeg, the filesystem clock) decides. -/
structure RequestEnv where
  fileUploaded : Bool
  originalname : String
  inputPath : String
  now : Nat
  probeData : Option FfprobeData
  transcodeSucceeds : Bool
  leftoverOutputWritten : Bool
  outputCreated : Bool
  originalSize : Nat
  newSize : Nat
deriving DecidableEq, Repr

/-- Filesystem view of the two artifacts of one request. -/
structure FileState where
  inputExists : Bool
  outputExists : Bool
deriving DecidableEq, Repr

/-- Observable outcome of the upload handler: HTTP status and body flags,
the metadata argument the pipeline was invoked with (outer `none` = the
pipeline was never invoked), the command configuration handed to ffmpeg,
which unlink calls ran before the response was sent, the scheduled input
cleanup delay, and the final artifact state. -/
structure HandlerOutcome where
  status : Nat
  success : Bool
  outputName : Option String
  sizeReduction : Option String
  metadataPassed : Option (Option AudioMetadata)
  transcodeConfig : Option EncodingConfig
  deletedInputBeforeResponse : Bool
  deletedOutputBeforeResponse : Bool
  inputCleanupDelayMs : Option Nat
  finalState : FileState
deriving DecidableEq, Repr

/-- Error path of the upload handler (src/server.js lines 271-286): unlink
input and output when they exist, then answer 500. -/
def handleFailure (name : String) (mp : Option AudioMetadata)
    (cfg : EncodingConfig) (st : FileState) : HandlerOutcome :=
  { status := 500
    success := false
    outputName := some name
    sizeReduction := none
    metadataPassed := some mp
    transcodeConfig := some cfg
    deletedInputBeforeResponse := st.inputExists
    deletedOutputBeforeResponse := st.outputExists
    inputCleanupDelayMs := none
    finalState := { inputExists := false, outputExists := false } }

/-- Embedding of the `POST /api/trim-silence` handler
(src/server.js lines 220-287): reject when no file is attached; probe and
swallow probe errors; run the pipeline; fail when the output file is
absent; otherwise compute the size statistics, answer 200 and schedule the
input cleanup after 5000 ms. -/
def handleUpload (env : RequestEnv) : HandlerOutcome :=
  if !env.fileUploaded then
    { status := 400
      success := false
      outputName := none
      sizeReduction := none
      metadataPassed := none
      transcodeConfig := none
      deletedInputBeforeResponse := false
      deletedOutputBeforeResponse := false
      inputCleanupDelayMs := none
      finalState := { inputExists := false, outputExists := false } }
  else
    let name := outputFilename env.now env.originalname
    let outputPath := "output/" ++ name
    let metadata : Option AudioMetadata :=
      match getAudioMetadata env.probeData with
      | .ok m => some m
      | .error _ => none
    let cfg := removeSilence env.inputPath outputPath metadata
    if env.transcodeSucceeds then
      let st : FileState :=
        { inputExists := true, outputExists := env.outputCreated }
      if !st.outputExists then
        handleFailure name metadata cfg st
      else
        let reduction :=
          toFixed2 (((env.originalSize : Rat) - (env.newSize : Rat)) /
            (env.originalSize : Rat) * 100)
        { status := 200
          success := true
          outputName := some name
          sizeReduction := some (reduction ++ "%")
          metadataPassed := some metadata
          transcodeConfig := some cfg
          deletedInputBeforeResponse := false
          deletedOutputBeforeResponse := false
          inputCleanupDelayMs := some 5000
          finalState := st }
    else
      let st : FileState :=
        { inputExists := true, outputExists := env.leftoverOutputWritten }
      handleFailure name metadata cfg st

/-- Modelled from the spec: §4.1's bitrate resolution order, reading
"present and parseable" as parsing to a usable (nonzero) number — (a)
stream field, (b) container field, (c) `floor(size * 8 / duration)` when
size parses and duration parses positive, else unset. -/
def specResolveBitrate (streamBr fmtBr fmtSize fmtDur : Option String) :
    Option Int :=
  match streamBr.bind parseIntJs with
  | some n =>
    if n ≠ 0 then some n
    else specResolveTail fmtBr fmtSize fmtDur
  | none => specResolveTail fmtBr fmtSize fmtDur
where
  /-- Tiers (b) and (c) of the spec's resolution order. -/
  specResolveTail (fmtBr fmtSize fmtDur : Option String) : Option Int :=
    match fmtBr.bind parseIntJs with
    | some m =>
      if m ≠ 0 then some m
      else specResolveComputed fmtSize fmtDur
    | none => specResolveComputed fmtSize fmtDur
  /-- Tier (c) of the spec's resolution order. -/
  specResolveComputed (fmtSize fmtDur : Option String) : Option Int :=
    match fmtSize.bind parseIntJs, fmtDur.bind parseFloatJs with
    | some sz, some d =>
      if 0 < d then some ⌊((sz * 8 : Int) : Rat) / d⌋ else none
    | _, _ => none

/-- Agreement of two JavaScript numeric slots up to truthiness: equal, or
both falsy (`null`, `NaN` or `0`), which every consumer in this program
treats identically. -/
def jsNumEquiv (x y : Option Int) : Prop :=
  x = y ∨ (jsTruthyNum x = false ∧ jsTruthyNum y = false)

/-- Modelled from the spec: the fixed selection the spec ascribes to the
legacy pipeline variant — 192 kbps mp3/aac, vorbis and pcm defaults —
independent of any source metadata. -/
def legacyTableCfg (ext : String) : EncodingConfig :=
  let base : EncodingConfig :=
    { audioFilters := [silenceremoveFilter]
      audioCodec := none
      audioBitrate := none
      extraOptions := [] }
  if ext = ".mp3" ∨ ext = ".mpeg" then
    { base with audioCodec := some "libmp3lame", audioBitrate := some 192 }
  else if ext = ".m4a" ∨ ext = ".mp4" then
    { base with audioCodec := some "aac", audioBitrate := some 192 }
  else if ext = ".ogg" then
    { base with audioCodec := some "libvorbis" }
  else if ext = ".wav" then
    { base with audioCodec := some "pcm_s16le" }
  else
    { base with audioCodec := some "aac", audioBitrate := some 192 }

end AudioTrimmer

namespace AudioTrimmer

/-- C4: every invocation of `removeSilence` installs exactly one audio
filter, the silenceremove filter with threshold -30 dB, minimum silence
run 0.5 s, and `stop_periods=-1`, i.e. unlimited repeated removal across
the whole file rather than only leading or trailing silence. -/
theorem removeSilence_single_silenceremove_filter
    (inputPath outputPath : String) (metadata : Option AudioMetadata) :
    (removeSilence inputPath outputPath metadata).audioFilters =
      [silenceremoveFilter] ∧
    parseFilterSpec silenceremoveFilter =
      ("silenceremove",
        [("stop_periods", "-1"), ("stop_duration", "0.5"),
          ("stop_threshold", "-30dB")]) := by
  constructor
  · simp only [removeSilence]
    rcases targetBitrateOf metadata with _ | t <;>
      split_ifs <;> rfl
  · decide

/-- C2: whenever the probed metadata carries a known (positive) original
bitrate in bits/sec, `removeSilence` derives the target bitrate as
`max(32, floor(bitrate / 1000))` kbps, and an mp3 output is encoded at
exactly that target. -/
theorem targetBitrate_preserves_source (m : AudioMetadata) (b : Int)
    (hb : m.bitrate = some b) (hpos : 0 < b) :
    targetBitrateOf (some m) = some (max 32 (Int.fdiv b 1000)) ∧
    (removeSilence "in" "audio.mp3" (some m)).audioBitrate =
      some (max 32 (Int.fdiv b 1000)) := by
  have hne : b ≠ 0 := ne_of_gt hpos
  have ht : targetBitrateOf (some m) = some (max 32 (Int.fdiv b 1000)) := by
    simp [targetBitrateOf, hb, hne]
  refine ⟨ht, ?_⟩
  have hext : lowerStr (extname "audio.mp3") = ".mp3" := by decide
  simp [removeSilence, hext, ht]

/-- Witness for C2 at the spec's own example: a 256000 bps source and an
mp3 output give a 256 kbps target. -/
theorem targetBitrate_preserves_source_witness :
    targetBitrateOf (some ⟨some 256000, "mp3", 44100, 2⟩) = some 256 ∧
    (removeSilence "in" "audio.mp3"
      (some ⟨some 256000, "mp3", 44100, 2⟩)).audioBitrate = some 256 := by
  have h := targetBitrate_preserves_source ⟨some 256000, "mp3", 44100, 2⟩
    256000 rfl (by decide)
  have hv : max 32 (Int.fdiv 256000 1000) = 256 := by decide
  rw [hv] at h
  exact h

/-- C9: the legacy pipeline variant takes no metadata and always selects
the fixed table — 192 kbps libmp3lame for mp3/mpeg, 192 kbps aac for
m4a/mp4 and for any other extension, vorbis codec default for ogg, 16-bit
pcm for wav — and it differs from the canonical metadata-aware variant,
e.g. on an mp3 source with a known 256000 bps bitrate. -/
theorem legacyRemoveSilence_fixed_and_inequivalent :
    (∀ inputPath outputPath : String,
      legacyRemoveSilence inputPath outputPath =
        legacyTableCfg (lowerStr (extname outputPath))) ∧
    removeSilence "in" "a.mp3" (some ⟨some 256000, "mp3", 44100, 2⟩) ≠
      legacyRemoveSilence "in" "a.mp3" := by
  constructor
  · intro inputPath outputPath
    simp only [legacyRemoveSilence, legacyTableCfg]
  · decide

/-- Counterexample for C8: the output artifact's filename is only
`trimmed-` plus timestamp plus extension — it has no random suffix, so two
concurrent requests in the same millisecond with different upload names,
hence different random upload suffixes, get the very same output
filename. -/
theorem outputFilename_lacks_random_suffix :
    outputFilename 1712345678901 "voice.mp3" =
      outputFilename 1712345678901 "song.mp3" ∧
    outputFilename 1712345678901 "voice.mp3" = "trimmed-1712345678901.mp3" := by
  constructor
  · rfl
  · decide

/-- C8 (amended): uploaded inputs are named timestamp + `-` + random
suffix + original extension, while outputs are named `trimmed-` +
timestamp + original extension with no random component, so output-name
uniqueness rests on the timestamp alone and two same-millisecond requests
whose upload names share an extension collide on the output name. -/
theorem artifact_naming_scheme (now rand : Nat) (name : String) :
    uploadFilename now rand name =
      toString now ++ "-" ++ toString rand ++ extname name ∧
    outputFilename now name = "trimmed-" ++ toString now ++ extname name ∧
    (∀ name2 : String, extname name2 = extname name →
      outputFilename now name2 = outputFilename now name) := by
  refine ⟨rfl, rfl, ?_⟩
  intro name2 h
  simp only [outputFilename, h]

/-- Witness for the amended C8 at concrete values: distinct upload names
with the same extension collide on the output filename. -/
theorem artifact_naming_scheme_witness :
    outputFilename 7 "b.mp3" = outputFilename 7 "a.mp3" := by
  exact (artifact_naming_scheme 7 9 "a.mp3").2.2 "b.mp3" (by decide)

/-- C1: for every output path and metadata, `removeSilence` selects codec
and bitrate exactly per the §4.2 table keyed on the lower-cased output
extension — libmp3lame at target/128 for mp3/mpeg, AAC-LC at target/96
for m4a/mp4 and for any other extension, vorbis at min(target, 256) or
codec default for ogg, and 16-bit pcm with no bitrate for wav. -/
theorem removeSilence_matches_spec_table (inputPath outputPath : String)
    (metadata : Option AudioMetadata) :
    (removeSilence inputPath outputPath metadata).audioCodec =
      some (specTableChoice (lowerStr (extname outputPath))
        (targetBitrateOf metadata)).codec ∧
    (removeSilence inputPath outputPath metadata).audioBitrate =
      (specTableChoice (lowerStr (extname outputPath))
        (targetBitrateOf metadata)).bitrate ∧
    producesAacLc (removeSilence inputPath outputPath metadata) =
      (specTableChoice (lowerStr (extname outputPath))
        (targetBitrateOf metadata)).aacLc := by
  rcases htb : targetBitrateOf metadata with _ | t <;>
    simp only [removeSilence, specTableChoice, producesAacLc, htb] <;>
    split_ifs <;>
    simp

/-- C5: when probing fails with any error, the upload handler swallows
the failure and invokes the pipeline with unset metadata — whose derived
target bitrate is then unset, so per-format defaults apply — and the
request still completes with a 200 when transcoding succeeds and the
output exists. -/
theorem probe_failure_nonfatal (env : RequestEnv) (e : ProbeError)
    (hprobe : getAudioMetadata env.probeData = .error e)
    (hfile : env.fileUploaded = true) :
    (handleUpload env).metadataPassed = some none ∧
    (handleUpload env).transcodeConfig =
      some (removeSilence env.inputPath
        ("output/" ++ outputFilename env.now env.originalname) none) ∧
    targetBitrateOf none = none ∧
    (env.transcodeSucceeds = true → env.outputCreated = true →
      (handleUpload env).status = 200 ∧ (handleUpload env).success = true) := by
  simp only [handleUpload, hprobe, hfile]
  rcases env.transcodeSucceeds with _ | _ <;>
    rcases hoc : env.outputCreated with _ | _ <;>
    simp [handleFailure, hoc, targetBitrateOf]

/-- Witness for C5: a request whose ffprobe invocation errors still
answers 200 and hands the pipeline unset metadata. -/
theorem probe_failure_nonfatal_witness :
    (handleUpload
      ⟨true, "a.mp3", "in", 7, none, true, false, true, 10, 5⟩).metadataPassed =
        some none ∧
    (handleUpload
      ⟨true, "a.mp3", "in", 7, none, true, false, true, 10, 5⟩).status = 200 := by
  have h := probe_failure_nonfatal
    ⟨true, "a.mp3", "in", 7, none, true, false, true, 10, 5⟩ .ProbeFailed rfl rfl
  exact ⟨h.1, (h.2.2.2 rfl rfl).1⟩

/-- C6: on a fatal failure — the transcode rejecting, or the output file
missing afterwards — the handler unlinks the input and any leftover output
before sending the 500 response, and neither artifact remains on disk. -/
theorem fatal_failure_cleans_artifacts (env : RequestEnv)
    (hfile : env.fileUploaded = true)
    (hfail : env.transcodeSucceeds = false ∨ env.outputCreated = false) :
    (handleUpload env).status = 500 ∧
    (handleUpload env).success = false ∧
    (handleUpload env).deletedInputBeforeResponse = true ∧
    (handleUpload env).deletedOutputBeforeResponse =
      (!env.transcodeSucceeds && env.leftoverOutputWritten) ∧
    (handleUpload env).finalState.inputExists = false ∧
    (handleUpload env).finalState.outputExists = false := by
  simp only [handleUpload, hfile]
  rcases htr : env.transcodeSucceeds with _ | _ <;>
    rcases hoc : env.outputCreated with _ | _ <;>
    simp_all [handleFailure]

/-- Witness for C6: a failed transcode that left a half-written output
file ends in a 500 with both artifacts removed. -/
theorem fatal_failure_cleans_artifacts_witness :
    (handleUpload
      ⟨true, "a.mp3", "in", 7, none, false, true, false, 10, 5⟩).status = 500 ∧
    (handleUpload
      ⟨true, "a.mp3", "in", 7, none, false, true, false, 10,
        5⟩).deletedOutputBeforeResponse = true ∧
    (handleUpload
      ⟨true, "a.mp3", "in", 7, none, false, true, false, 10,
        5⟩).finalState.outputExists = false := by
  have h := fatal_failure_cleans_artifacts
    ⟨true, "a.mp3", "in", 7, none, false, true, false, 10, 5⟩ rfl (Or.inl rfl)
  exact ⟨h.1, h.2.2.2.1, h.2.2.2.2.2⟩

/-- C7: every successful request reports
`(originalSize - newSize) / originalSize * 100` rounded to two decimals,
suffixed with a percent sign. -/
theorem size_reduction_formula (env : RequestEnv)
    (hfile : env.fileUploaded = true)
    (htr : env.transcodeSucceeds = true) (hoc : env.outputCreated = true)
    (_hpos : 0 < env.originalSize) :
    (handleUpload env).status = 200 ∧
    (handleUpload env).sizeReduction =
      some (toFixed2 (((env.originalSize : Rat) - (env.newSize : Rat)) /
        (env.originalSize : Rat) * 100) ++ "%") := by
  simp [handleUpload, hfile, htr, hoc]

/-- Witness for C7 at the spec's example: 1,000,000 bytes shrinking to
750,000 bytes is reported as a 25.00% reduction. -/
theorem size_reduction_formula_witness :
    (handleUpload
      ⟨true, "a.mp3", "in", 7, none, true, false, true, 1000000,
        750000⟩).sizeReduction = some "25.00%" := by
  have h := size_reduction_formula
    ⟨true, "a.mp3", "in", 7, none, true, false, true, 1000000, 750000⟩
    rfl rfl rfl (by decide)
  rw [h.2]
  have hx : ((((1000000 : Nat) : Rat)) - (((750000 : Nat) : Rat))) /
      (((1000000 : Nat) : Rat)) * 100 = 25 := by norm_num
  rw [show ((⟨true, "a.mp3", "in", 7, none, true, false, true, 1000000,
      750000⟩ : RequestEnv).originalSize : Rat) = ((1000000 : Nat) : Rat) from rfl,
    show ((⟨true, "a.mp3", "in", 7, none, true, false, true, 1000000,
      750000⟩ : RequestEnv).newSize : Rat) = ((750000 : Nat) : Rat) from rfl,
    hx]
  norm_num [toFixed2, Rat.num_ofNat, Rat.den_ofNat]
  decide

lemma jsNumEquiv_refl (x : Option Int) : jsNumEquiv x x := Or.inl rfl

lemma jsNumEquiv_falsy (x y : Option Int) (hx : jsTruthyNum x = false)
    (hy : jsTruthyNum y = false) : jsNumEquiv x y := Or.inr ⟨hx, hy⟩

lemma parseIntJs_empty : parseIntJs "" = none := rfl

lemma parseFloatJs_empty : parseFloatJs "" = none := rfl

lemma jsStrTruthy_none : jsStrTruthy none = false := rfl

lemma jsStrTruthy_empty : jsStrTruthy (some "") = false := rfl

lemma isEmpty_false_of_ne (s : String) (h : s ≠ "") : s.isEmpty = false := by
  cases hq : s.isEmpty
  · rfl
  · exact absurd ((String.isEmpty_iff s).mp hq) h

lemma jsStrTruthy_some (s : String) (h : s ≠ "") :
    jsStrTruthy (some s) = true := by
  simp [jsStrTruthy, isEmpty_false_of_ne s h]

lemma jsTruthyNum_none : jsTruthyNum none = false := rfl

lemma jsTruthyNum_zero : jsTruthyNum (some 0) = false := by
  simp [jsTruthyNum]

lemma jsTruthyNum_nonzero (n : Int) (h : n ≠ 0) :
    jsTruthyNum (some n) = true := by
  simp [jsTruthyNum, h]

/-- Tier (c) of the code's cascade agrees with the spec's computed tier,
whatever falsy value the cascade is carrying when it reaches it. -/
lemma computed_equiv (b : Option Int) (hb : jsTruthyNum b = false)
    (fmtO : Option FfprobeFormat) :
    jsNumEquiv
      (match fmtO with
       | some fmt =>
         if jsStrTruthy fmt.size && jsStrTruthy fmt.duration then
           match parseFloatJs (fmt.duration.getD "") with
           | some dv =>
             if 0 < dv then
               (parseIntJs (fmt.size.getD "")).map
                 (fun sb => ⌊((sb * 8 : Int) : Rat) / dv⌋)
             else b
           | none => b
         else b
       | none => b)
      (specResolveBitrate.specResolveComputed (fmtO.bind FfprobeFormat.size)
        (fmtO.bind FfprobeFormat.duration)) := by
  rcases fmtO with _ | fmt
  · exact jsNumEquiv_falsy _ _ hb rfl
  · simp only [Option.some_bind]
    rcases hsz : fmt.size with _ | szs <;>
      rcases hdur : fmt.duration with _ | durs
    · simp only [specResolveBitrate.specResolveComputed, Option.none_bind,
        jsStrTruthy_none, Bool.false_and, Bool.false_eq_true, if_false]
      exact jsNumEquiv_falsy _ _ hb rfl
    · simp only [specResolveBitrate.specResolveComputed, Option.none_bind,
        jsStrTruthy_none, Bool.false_and, Bool.false_eq_true, if_false]
      exact jsNumEquiv_falsy _ _ hb rfl
    · simp only [specResolveBitrate.specResolveComputed, Option.none_bind,
        Option.some_bind, jsStrTruthy_none, Bool.and_false,
        Bool.false_eq_true, if_false]
      rcases parseIntJs szs with _ | v <;> exact jsNumEquiv_falsy _ _ hb rfl
    · by_cases hse : szs = ""
      · subst hse
        simp only [specResolveBitrate.specResolveComputed, Option.some_bind,
          parseIntJs_empty, jsStrTruthy_empty, Bool.false_and,
          Bool.false_eq_true, if_false]
        exact jsNumEquiv_falsy _ _ hb rfl
      · by_cases hde : durs = ""
        · subst hde
          simp only [specResolveBitrate.specResolveComputed, Option.some_bind,
            parseFloatJs_empty, jsStrTruthy_empty, Bool.and_false,
            Bool.false_eq_true, if_false]
          rcases parseIntJs szs with _ | v <;>
            exact jsNumEquiv_falsy _ _ hb rfl
        · simp only [specResolveBitrate.specResolveComputed, Option.some_bind,
            jsStrTruthy_some szs hse, jsStrTruthy_some durs hde,
            Bool.and_self, if_true, Option.getD_some]
          rcases hps : parseIntJs szs with _ | v <;>
            rcases hpd : parseFloatJs durs with _ | dv
          · exact jsNumEquiv_falsy _ _ hb rfl
          · by_cases hdv : 0 < dv
            · simp only [hdv, if_true, Option.map_none']
              exact jsNumEquiv_refl _
            · simp only [hdv, if_false]
              exact jsNumEquiv_falsy _ _ hb rfl
          · exact jsNumEquiv_falsy _ _ hb rfl
          · by_cases hdv : 0 < dv
            · simp only [hdv, if_true, Option.map_some']
              exact jsNumEquiv_refl _
            · simp only [hdv, if_false]
              exact jsNumEquiv_falsy _ _ hb rfl

/-- Tiers (b) and (c) of the code's cascade agree with the spec's tail,
whatever falsy value tier (a) produced. -/
lemma tail_equiv (b1 : Option Int) (h1 : jsTruthyNum b1 = false)
    (fmtO : Option FfprobeFormat) :
    jsNumEquiv
      (let b2 :=
        if !jsTruthyNum b1 then
          match fmtO with
          | some fmt =>
            if jsStrTruthy fmt.bit_rate then parseIntJs (fmt.bit_rate.getD "")
            else b1
          | none => b1
        else b1
       if !jsTruthyNum b2 then
         match fmtO with
         | some fmt =>
           if jsStrTruthy fmt.size && jsStrTruthy fmt.duration then
             match parseFloatJs (fmt.duration.getD "") with
             | some dv =>
               if 0 < dv then
                 (parseIntJs (fmt.size.getD "")).map
                   (fun sb => ⌊((sb * 8 : Int) : Rat) / dv⌋)
               else b2
             | none => b2
           else b2
         | none => b2
       else b2)
      (specResolveBitrate.specResolveTail (fmtO.bind FfprobeFormat.bit_rate)
        (fmtO.bind FfprobeFormat.size) (fmtO.bind FfprobeFormat.duration)) := by
  simp only [h1, Bool.not_false, if_true]
  rcases fmtO with _ | fmt
  · simp only [specResolveBitrate.specResolveTail, Option.none_bind, h1,
      Bool.not_false, if_true]
    exact computed_equiv b1 h1 none
  · simp only [Option.some_bind, specResolveBitrate.specResolveTail]
    rcases hfb : fmt.bit_rate with _ | fbs
    · simp only [Option.none_bind, jsStrTruthy_none, Bool.false_eq_true,
        if_false, h1, Bool.not_false, if_true]
      exact computed_equiv b1 h1 (some fmt)
    · by_cases hfe : fbs = ""
      · subst hfe
        simp only [Option.some_bind, parseIntJs_empty, jsStrTruthy_empty,
          Bool.false_eq_true, if_false, h1, Bool.not_false, if_true]
        exact computed_equiv b1 h1 (some fmt)
      · simp only [Option.some_bind, jsStrTruthy_some fbs hfe, if_true,
          Option.getD_some]
        rcases hp : parseIntJs fbs with _ | m
        · simp only [jsTruthyNum_none, Bool.not_false, if_true]
          exact computed_equiv none rfl (some fmt)
        · by_cases hm : m = 0
          · subst hm
            simp only [jsTruthyNum_zero, Bool.not_false, if_true, ne_eq,
              not_true_eq_false, if_false]
            exact computed_equiv (some 0) jsTruthyNum_zero (some fmt)
          · simp only [jsTruthyNum_nonzero m hm, Bool.not_true,
              Bool.false_eq_true, if_false, ne_eq, hm, not_false_eq_true,
              if_true]
            exact jsNumEquiv_refl _

/-- Full agreement of the code's three-tier cascade with the spec's
resolution order, up to JavaScript falsiness. -/
lemma resolveBitrateJs_spec_equiv (sbr : Option String)
    (fmtO : Option FfprobeFormat) :
    jsNumEquiv (resolveBitrateJs sbr fmtO)
      (specResolveBitrate sbr (fmtO.bind FfprobeFormat.bit_rate)
        (fmtO.bind FfprobeFormat.size)
        (fmtO.bind FfprobeFormat.duration)) := by
  rcases sbr with _ | str
  · simp only [resolveBitrateJs, jsStrTruthy_none, Bool.false_eq_true,
      if_false, specResolveBitrate, Option.none_bind]
    exact tail_equiv none rfl fmtO
  · by_cases he : str = ""
    · subst he
      simp only [resolveBitrateJs, jsStrTruthy_empty, Bool.false_eq_true,
        if_false, specResolveBitrate, Option.some_bind, parseIntJs_empty]
      exact tail_equiv none rfl fmtO
    · simp only [resolveBitrateJs, jsStrTruthy_some str he, if_true,
        Option.getD_some, specResolveBitrate, Option.some_bind]
      rcases hp : parseIntJs str with _ | n
      · exact tail_equiv none rfl fmtO
      · by_cases hn : n = 0
        · subst hn
          simp only [ne_eq, not_true_eq_false, if_false]
          exact tail_equiv (some 0) jsTruthyNum_zero fmtO
        · simp only [jsTruthyNum_nonzero n hn, Bool.not_true,
            Bool.false_eq_true, if_false, ne_eq, hn, not_false_eq_true,
            if_true]
          exact jsNumEquiv_refl _

/-- C3: the probe resolves the bitrate in priority order — stream field,
container field, then `floor(size * 8 / duration)` when size and duration
are usable with positive duration, else it stays unset (JS-falsy) — and
the probe never fails over the bitrate: it errors only when no audio
stream exists or the tool invocation itself fails. -/
theorem probe_resolves_bitrate_in_priority_order :
    getAudioMetadata none = .error .ProbeFailed ∧
    (∀ d : FfprobeData,
      d.streams.find? (fun s => s.codec_type == "audio") = none →
      getAudioMetadata (some d) = .error .NoAudioStream) ∧
    (∀ (d : FfprobeData) (s : FfprobeStream),
      d.streams.find? (fun s => s.codec_type == "audio") = some s →
      ∃ md, getAudioMetadata (some d) = .ok md ∧
        md.codec = s.codec_name ∧ md.sampleRate = s.sample_rate ∧
        md.channels = s.channels ∧
        jsNumEquiv md.bitrate
          (specResolveBitrate s.bit_rate
            (d.format.bind FfprobeFormat.bit_rate)
            (d.format.bind FfprobeFormat.size)
            (d.format.bind FfprobeFormat.duration))) := by
  refine ⟨rfl, ?_, ?_⟩
  · intro d hfind
    simp only [getAudioMetadata, hfind]
  · intro d s hfind
    have heq : getAudioMetadata (some d) =
        .ok ⟨resolveBitrateJs s.bit_rate d.format, s.codec_name,
          s.sample_rate, s.channels⟩ := by
      simp only [getAudioMetadata, hfind, resolveBitrateJs]
    exact ⟨_, heq, rfl, rfl, rfl,
      resolveBitrateJs_spec_equiv s.bit_rate d.format⟩

/-- Witness for C3: a stream-level bitrate of "256000" resolves to 256000
bps with the stream's codec, sample rate and channels carried over. -/
theorem probe_resolves_bitrate_in_priority_order_witness :
    ∃ md, getAudioMetadata
        (some ⟨[⟨"audio", some "256000", "mp3", 44100, 2⟩], none⟩) =
          .ok md ∧
      md.codec = "mp3" ∧ md.sampleRate = 44100 ∧ md.channels = 2 ∧
      jsNumEquiv md.bitrate
        (specResolveBitrate (some "256000") none none none) := by
  exact probe_resolves_bitrate_in_priority_order.2.2
    ⟨[⟨"audio", some "256000", "mp3", 44100, 2⟩], none⟩
    ⟨"audio", some "256000", "mp3", 44100, 2⟩ rfl

/-- C10: a zero or unparseable stream bitrate falls through to the
container tier of the probe, and a metadata bitrate of 0 makes the
pipeline pick the per-format defaults (128 kbps mp3 / 96 kbps aac) exactly
as an unset bitrate does, never `max(32, 0)`. -/
theorem zero_bitrate_treated_as_unknown :
    (∀ (cname : String) (sr ch : Nat) (bv fbv : String)
      (sz dur : Option String) (m : Int),
      (parseIntJs bv = some 0 ∨ parseIntJs bv = none) →
      fbv ≠ "" → parseIntJs fbv = some m → m ≠ 0 →
      getAudioMetadata (some ⟨[⟨"audio", some bv, cname, sr, ch⟩],
        some ⟨some fbv, sz, dur⟩⟩) = .ok ⟨some m, cname, sr, ch⟩) ∧
    (∀ (i p : String) (md : AudioMetadata), md.bitrate = some 0 →
      removeSilence i p (some md) = removeSilence i p none) ∧
    (removeSilence "i" "a.mp3"
      (some ⟨some 0, "mp3", 44100, 2⟩)).audioBitrate = some 128 ∧
    (removeSilence "i" "a.m4a"
      (some ⟨some 0, "aac", 44100, 2⟩)).audioBitrate = some 96 := by
  refine ⟨?_, ?_, by decide, by decide⟩
  · intro cname sr ch bv fbv sz dur m hbv hfbv hm hm0
    have hft := jsStrTruthy_some fbv hfbv
    have hmt := jsTruthyNum_nonzero m hm0
    by_cases hbe : bv = ""
    · subst hbe
      simp [getAudioMetadata, List.find?, jsStrTruthy_empty, jsTruthyNum_none,
        hft, hm, hmt]
    · have hbt := jsStrTruthy_some bv hbe
      rcases hbv with h0 | h0 <;>
        simp [getAudioMetadata, List.find?, hbt, h0, jsTruthyNum_zero,
          jsTruthyNum_none, hft, hm, hmt]
  · intro i p md h
    have h1 : targetBitrateOf (some md) = none := by
      simp [targetBitrateOf, h]
    simp only [removeSilence, h1, show targetBitrateOf none = none from rfl]

/-- Witness for C10: stream bitrate "0" with container bitrate "128000"
resolves to 128000 bps, and a metadata bitrate of 0 yields the very same
pipeline configuration as unset metadata. -/
theorem zero_bitrate_treated_as_unknown_witness :
    getAudioMetadata (some ⟨[⟨"audio", some "0", "mp3", 44100, 2⟩],
      some ⟨some "128000", none, none⟩⟩) =
        .ok ⟨some 128000, "mp3", 44100, 2⟩ ∧
    removeSilence "i" "x.mp3" (some ⟨some 0, "mp3", 44100, 2⟩) =
      removeSilence "i" "x.mp3" none := by
  constructor
  · exact zero_bitrate_treated_as_unknown.1 "mp3" 44100 2 "0" "128000"
      none none 128000 (Or.inl (by decide)) (by decide) (by decide)
      (by decide)
  · exact zero_bitrate_treated_as_unknown.2.1 "i" "x.mp3"
      ⟨some 0, "mp3", 44100, 2⟩ rfl

end AudioTrimmer
